import Mathlib

/-!
Shallow embedding of the WhaleWatch core (`src/whalewatch_core.py`) and the
fan-out layer of its web front-end (`src/app.py`).

Numeric conventions: Python unbounded `int` is `Int`/`Nat`; Python `float`
arithmetic on BTC/USD amounts is modelled exactly over `ℚ`; `1e8` is the
exact constant `100000000`.  Python `None`-able values are `Option`.
Time stamps produced by `datetime.now()` are passed in as an explicit
parameter.  Callback invocation wrapped in `try/except Exception: pass`
is modelled in the `Except` monad via `pyTry`.
-/

/-- A decoded JSON value as it can appear in an output's `value` field.
`jarr` stands for any JSON array/object (Python `int()` raises `TypeError`
on those, as on `None`). -/
inductive JVal where
  | jnum (n : Int)
  | jstr (s : String)
  | jbool (b : Bool)
  | jnull
  | jarr
deriving DecidableEq

/-- Digits of a decimal numeral folded into a `Nat`. -/
def digitsToNat (cs : List Char) : Nat :=
  cs.foldl (fun a c => a * 10 + (c.toNat - 48)) 0

/-- A nonempty all-digit character list parsed to a `Nat`, else `none`. -/
def parseDigits (cs : List Char) : Option Nat :=
  if !cs.isEmpty && cs.all Char.isDigit then some (digitsToNat cs) else none

/-- Python `int(s)` on a string: surrounding whitespace stripped, an
optional single sign, then a nonempty run of decimal digits; anything
else raises `ValueError`, i.e. `none`. -/
def pyIntString (s : String) : Option Int :=
  match ((s.data.dropWhile Char.isWhitespace).reverse.dropWhile Char.isWhitespace).reverse with
  | [] => none
  | c :: cs =>
    if c = '+' then (parseDigits cs).map (fun n => (n : Int))
    else if c = '-' then (parseDigits cs).map (fun n => -(n : Int))
    else (parseDigits (c :: cs)).map (fun n => (n : Int))

/-- Python `int(v)` on a decoded JSON value: an `int` is itself, a string
is parsed, a bool is 0/1 (`bool` is an `int` subclass), `None` and
arrays/objects raise (`TypeError`), i.e. `none`. -/
def pyInt : JVal → Option Int
  | .jnum n => some n
  | .jstr s => pyIntString s
  | .jbool b => some (if b then 1 else 0)
  | .jnull => none
  | .jarr => none

/-- One entry of a transaction's `out` list: `value` is `none` when the
key is missing, `addr` is `none` when that key is missing. -/
structure TxOutput where
  value : Option JVal
  addr : Option String
deriving DecidableEq

/-- Model of `int(out.get("value", 0))`: a missing `value` key defaults to the
integer `0`; otherwise the stored JSON value goes through `pyInt`. -/
def parsedOutputValue (o : TxOutput) : Option Int :=
  match o.value with
  | none => some 0
  | some v => pyInt v

/-- The upstream-decoded `utx` payload `x`: output list, `time`, `hash`. -/
structure RawTx where
  out : List TxOutput
  time : Option Int
  hash : Option String
deriving DecidableEq

/-- The summing loop of `_handle_unconfirmed_tx`: each output whose value
parses is added to the accumulator, a `TypeError`/`ValueError` output is
skipped (`continue`). -/
def totalSat (outs : List TxOutput) : Int :=
  outs.foldl
    (fun acc o =>
      match parsedOutputValue o with
      | some n => acc + n
      | none => acc) 0

/-- The upstream-decoded `block` payload `x`. -/
structure RawBlock where
  height : Option Int
  nTx : Option Int
deriving DecidableEq

/-- Payload of a `"whale"` callback. -/
structure WhaleEvent where
  hash : Option String
  value_btc : ℚ
  value_usd : ℚ
  timestamp : Option Int
  address : Option String
deriving DecidableEq

/-- Payload of a `"summary"` callback. -/
structure SummaryEvent where
  count : Nat
  total_btc : ℚ
  avg_btc : ℚ
  total_usd : ℚ
  avg_usd : ℚ
  whales : Nat
  timestamp : ℚ
deriving DecidableEq

/-- Payload of a `"block"` callback. -/
structure BlockEvent where
  height : Option Int
  n_tx : Option Int
  timestamp : ℚ
deriving DecidableEq

/-- The mutable state of a `WhaleWatch` instance: configuration, the
per-interval statistics triple set by `_reset_stats`, and the cached
price (`_price_usd`, `None` until the first successful fetch). -/
structure WWState where
  threshold_btc : ℚ
  summary_interval : Int
  unconfirmed_count : Nat
  total_value_sat : Int
  whale_count : Nat
  price_usd : Option ℚ
deriving DecidableEq

/-- Model of `WhaleWatch.__init__` followed by `_reset_stats`: counters zero,
no price cached yet. -/
def WhaleWatch.init (threshold_btc : ℚ) (summary_interval : Int) : WWState :=
  { threshold_btc := threshold_btc
    summary_interval := summary_interval
    unconfirmed_count := 0
    total_value_sat := 0
    whale_count := 0
    price_usd := none }

/-- Model of `_handle_unconfirmed_tx`: sums the outputs, increments the
transaction count, adds to the cumulative satoshi value, and when
`total_btc >= threshold_btc` increments the whale count and (when a
callback is registered, `cbPresent`) hands a `WhaleEvent` to it.
`value_usd` uses `(self._price_usd or 0.0)`, i.e. `0` when no price is
cached. -/
def handle_unconfirmed_tx (cbPresent : Bool) (s : WWState) (tx : RawTx) :
    WWState × Option WhaleEvent :=
  let total_sat := totalSat tx.out
  let total_btc : ℚ := (total_sat : ℚ) / 100000000
  let first_addr : Option String :=
    match tx.out with
    | [] => none
    | o :: _ => o.addr
  let s₁ : WWState :=
    { s with
      unconfirmed_count := s.unconfirmed_count + 1
      total_value_sat := s.total_value_sat + total_sat }
  if total_btc ≥ s.threshold_btc then
    ({ s₁ with whale_count := s₁.whale_count + 1 },
      if cbPresent then
        some
          { hash := tx.hash
            value_btc := total_btc
            value_usd := (s.price_usd.getD 0) * total_btc
            timestamp := tx.time
            address := first_addr }
      else none)
  else (s₁, none)

/-- Model of `_handle_new_block`: no aggregation; when a callback is registered it
receives height, `nTx` and the observation time (`datetime.now()`,
passed in as `now`). -/
def handle_new_block (cbPresent : Bool) (blk : RawBlock) (now : ℚ) :
    Option BlockEvent :=
  if cbPresent then some { height := blk.height, n_tx := blk.nTx, timestamp := now }
  else none

/-- One iteration of `_summary_loop` after the sleep: snapshot and reset
the statistics triple under the lock, then — only when the snapshotted
count is nonzero — build the summary (average, USD-equivalents from the
latest cached price, `or 0.0`) and hand it to the callback when present. -/
def summary_cycle (cbPresent : Bool) (s : WWState) (now : ℚ) :
    WWState × Option SummaryEvent :=
  let count := s.unconfirmed_count
  let total_sat := s.total_value_sat
  let whale_count := s.whale_count
  let s₁ : WWState :=
    { s with unconfirmed_count := 0, total_value_sat := 0, whale_count := 0 }
  if count = 0 then (s₁, none)
  else
    let total_btc : ℚ := (total_sat : ℚ) / 100000000
    let avg_btc : ℚ := total_btc / (count : ℚ)
    let price : ℚ := s.price_usd.getD 0
    (s₁,
      if cbPresent then
        some
          { count := count
            total_btc := total_btc
            avg_btc := avg_btc
            total_usd := total_btc * price
            avg_usd := avg_btc * price
            whales := whale_count
            timestamp := now }
      else none)

/-- Model of `update_config`: each parameter independently optional, only the
supplied ones are written (both under the lock). -/
def update_config (threshold_btc : Option ℚ) (summary_interval : Option Int)
    (s : WWState) : WWState :=
  let s₁ :=
    match threshold_btc with
    | some t => { s with threshold_btc := t }
    | none => s
  match summary_interval with
  | some i => { s₁ with summary_interval := i }
  | none => s₁

/-- Folding a list of incoming `utx` payloads through the transaction
handler (the state part only). -/
def ingest_all (cbPresent : Bool) (txs : List RawTx) (s : WWState) : WWState :=
  txs.foldl (fun st tx => (handle_unconfirmed_tx cbPresent st tx).1) s

/-- A tagged callback payload (`data` argument of `callback(event_type, data)`). -/
inductive WWEvent where
  | whale (e : WhaleEvent)
  | summary (e : SummaryEvent)
  | block (e : BlockEvent)
deriving DecidableEq

/-- Model of `try: stmt except Exception: pass` around an effectful statement:
whatever the statement does, control continues normally. -/
def pyTry {ε : Type} (a : Except ε Unit) : Except ε Unit :=
  match a with
  | .ok _ => .ok ()
  | .error _ => .ok ()

/-- Model of `_handle_unconfirmed_tx` with the user callback made explicit as an
`Except`-valued function (it may raise); the call site is wrapped in
`try/except Exception: pass` (`pyTry`), exactly as in the source. -/
def handle_unconfirmed_txE {ε : Type} (cb : String → WWEvent → Except ε Unit)
    (s : WWState) (tx : RawTx) : Except ε (WWState × Option WhaleEvent) := do
  let total_sat := totalSat tx.out
  let total_btc : ℚ := (total_sat : ℚ) / 100000000
  let first_addr : Option String :=
    match tx.out with
    | [] => none
    | o :: _ => o.addr
  let s₁ : WWState :=
    { s with
      unconfirmed_count := s.unconfirmed_count + 1
      total_value_sat := s.total_value_sat + total_sat }
  if total_btc ≥ s.threshold_btc then
    let ev : WhaleEvent :=
      { hash := tx.hash
        value_btc := total_btc
        value_usd := (s.price_usd.getD 0) * total_btc
        timestamp := tx.time
        address := first_addr }
    pyTry (cb "whale" (.whale ev))
    pure ({ s₁ with whale_count := s₁.whale_count + 1 }, some ev)
  else pure (s₁, none)

/-- Model of `_handle_new_block` with the explicit `Except`-valued callback. -/
def handle_new_blockE {ε : Type} (cb : String → WWEvent → Except ε Unit)
    (blk : RawBlock) (now : ℚ) : Except ε (Option BlockEvent) := do
  let ev : BlockEvent := { height := blk.height, n_tx := blk.nTx, timestamp := now }
  pyTry (cb "block" (.block ev))
  pure (some ev)

/-- One `_summary_loop` iteration with the explicit `Except`-valued callback. -/
def summary_cycleE {ε : Type} (cb : String → WWEvent → Except ε Unit)
    (s : WWState) (now : ℚ) : Except ε (WWState × Option SummaryEvent) := do
  let count := s.unconfirmed_count
  let total_sat := s.total_value_sat
  let whale_count := s.whale_count
  let s₁ : WWState :=
    { s with unconfirmed_count := 0, total_value_sat := 0, whale_count := 0 }
  if count = 0 then pure (s₁, none)
  else
    let total_btc : ℚ := (total_sat : ℚ) / 100000000
    let avg_btc : ℚ := total_btc / (count : ℚ)
    let price : ℚ := s.price_usd.getD 0
    let ev : SummaryEvent :=
      { count := count
        total_btc := total_btc
        avg_btc := avg_btc
        total_usd := total_btc * price
        avg_usd := avg_btc * price
        whales := whale_count
        timestamp := now }
    pyTry (cb "summary" (.summary ev))
    pure (s₁, some ev)

/-- A per-client SSE queue from `src/app.py`: `queue.Queue(maxsize)`.
A `maxsize ≤ 0` Python queue is unbounded. -/
structure ClientQueue where
  maxsize : Nat
  items : List (String × WWEvent)
deriving DecidableEq

/-- Whether `q.put` would raise `queue.Full` after its bounded wait. -/
def queueFull (q : ClientQueue) : Bool :=
  0 < q.maxsize && q.maxsize ≤ q.items.length

/-- Model of `q.put(item, timeout=0.1)` with the surrounding `except queue.Full:
pass`: a full queue drops the item, otherwise it is enqueued. -/
def queuePut (q : ClientQueue) (item : String × WWEvent) : ClientQueue :=
  if queueFull q then q else { q with items := q.items ++ [item] }

/-- Model of `broadcast_event` from `src/app.py`: under `client_lock`, each
registered client queue gets its own copy of the event, a full queue is
skipped. -/
def broadcast_event (qs : List ClientQueue) (event_type : String)
    (data : WWEvent) : List ClientQueue :=
  qs.map (fun q => queuePut q (event_type, data))

/-- Every attribute (field or method) a `WhaleWatch` instance has,
transcribed from the class body of `src/whalewatch_core.py`. -/
def whaleWatchAttributes : List String :=
  ["threshold_btc", "summary_interval", "callback", "_lock",
   "_unconfirmed_count", "_total_value_sat", "_whale_count",
   "_price_usd", "_stop_event", "_reset_stats", "_fetch_price",
   "_price_loop", "_on_open", "_on_message", "_handle_unconfirmed_tx",
   "_handle_new_block", "_summary_loop", "update_threshold",
   "update_interval", "update_config", "_run_ws", "start", "stop"]

/-- Python `hasattr(watcher, name)` for a started `WhaleWatch` instance. -/
def pyHasattrWhaleWatch (name : String) : Bool :=
  whaleWatchAttributes.contains name

/-- The `/health` endpoint of `src/app.py`: status is `healthy`/`degraded`
from `watcher.is_running()` only when the watcher exists and has an
`is_running` attribute; otherwise `starting`. `runningResult` is what
`is_running()` would return were it called. -/
def health_check (watcherPresent : Bool) (runningResult : Bool) : String :=
  if watcherPresent && pyHasattrWhaleWatch "is_running" then
    if runningResult then "healthy" else "degraded"
  else "starting"

/-- One atomic mutation of the shared `WhaleWatch` state, as performed by
the threads of the program: a transaction ingestion, a summary-cycle
snapshot-and-reset, a configuration update, or a price-loop refresh. -/
inductive WWStep : WWState → WWState → Prop where
  | tx (cb : Bool) (s : WWState) (t : RawTx) :
      WWStep s (handle_unconfirmed_tx cb s t).1
  | summary (cb : Bool) (s : WWState) (now : ℚ) :
      WWStep s (summary_cycle cb s now).1
  | config (t : Option ℚ) (i : Option Int) (s : WWState) :
      WWStep s (update_config t i s)
  | price (p : ℚ) (s : WWState) :
      WWStep s { s with price_usd := some p }

/-- States reachable from a freshly constructed instance by any
interleaving of the program's state mutations. -/
inductive WWReachable : WWState → Prop where
  | init (t : ℚ) (i : Int) : WWReachable (WhaleWatch.init t i)
  | step (s s₂ : WWState) : WWReachable s → WWStep s s₂ → WWReachable s₂

/-- Follows the spec's words (§8, first testable property): the number of
ingested transactions "with at least one parseable output value". -/
def specParseableTxCount (txs : List RawTx) : Nat :=
  (txs.filter (fun tx => tx.out.any (fun o => (parsedOutputValue o).isSome))).length

/-- Follows the spec's words (§4.2): the sum over exactly those outputs
"whose value can be parsed as a non-negative integer". -/
def specSumNonneg (outs : List TxOutput) : Int :=
  ((outs.filterMap parsedOutputValue).filter (fun n => decide (0 ≤ n))).sum

/-! ## Basic lemmas about the transaction handler -/

theorem handle_tx_count (cb : Bool) (s : WWState) (tx : RawTx) :
    (handle_unconfirmed_tx cb s tx).1.unconfirmed_count = s.unconfirmed_count + 1 := by
  simp only [handle_unconfirmed_tx]
  split <;> rfl

theorem handle_tx_total (cb : Bool) (s : WWState) (tx : RawTx) :
    (handle_unconfirmed_tx cb s tx).1.total_value_sat
      = s.total_value_sat + totalSat tx.out := by
  simp only [handle_unconfirmed_tx]
  split <;> rfl

theorem handle_tx_whale (cb : Bool) (s : WWState) (tx : RawTx) :
    (handle_unconfirmed_tx cb s tx).1.whale_count = s.whale_count
    ∨ (handle_unconfirmed_tx cb s tx).1.whale_count = s.whale_count + 1 := by
  simp only [handle_unconfirmed_tx]
  split
  · exact Or.inr rfl
  · exact Or.inl rfl

/-! ## C5: update_config frame property -/

/-- C5: each `update_config` parameter is independently optional and only
the supplied parameters are mutated: supplying only the threshold leaves
the interval unchanged (and vice versa), and supplying neither leaves the
whole state unchanged. -/
theorem C5_update_config_frame (s : WWState) (t : ℚ) (i : Int) :
    update_config (some t) none s = { s with threshold_btc := t }
    ∧ update_config none (some i) s = { s with summary_interval := i }
    ∧ update_config none none s = s
    ∧ (update_config (some t) none s).summary_interval = s.summary_interval
    ∧ (update_config none (some i) s).threshold_btc = s.threshold_btc := by
  refine ⟨rfl, rfl, rfl, rfl, rfl⟩

/-! ## C2: inclusive whale threshold, read live at processing time -/

/-- C2: a transaction is classified as a whale — the whale count is
incremented and (with a callback registered) a `WhaleEvent` is handed to
it — exactly when its summed value in BTC is `≥` the threshold stored in
the state at the moment of processing, boundary inclusive. -/
theorem C2_whale_threshold_inclusive (s : WWState) (tx : RawTx) :
    ((handle_unconfirmed_tx true s tx).1.whale_count = s.whale_count + 1
      ∧ ((handle_unconfirmed_tx true s tx).2).isSome = true)
    ↔ (totalSat tx.out : ℚ) / 100000000 ≥ s.threshold_btc := by
  simp only [handle_unconfirmed_tx]
  split
  · next h => simpa using h
  · next h => simpa using h

/-! ## C3: which output values are summed -/

/-- C3 counterexample: an output whose value is the integer `-5` does
not "parse as a non-negative integer", yet the code adds it rather than
skipping it: the summed value is `-5`, not the `0` the claim predicts. -/
theorem C3_counterexample :
    totalSat [⟨some (.jnum (-5)), none⟩] = -5
    ∧ specSumNonneg [⟨some (.jnum (-5)), none⟩] = 0
    ∧ (-5 : Int) ≠ 0 := by
  refine ⟨rfl, rfl, by decide⟩

/-- C3 (amended): the summed native-unit value equals the sum of exactly
those outputs whose value parses as an integer (Python `int()`, sign
allowed); an output that fails to parse is skipped, and the transaction
is still processed — its ingestion still increments the transaction
count. -/
theorem C3_sum_parseable_outputs (outs : List TxOutput) (t : Option Int)
    (h : Option String) (s : WWState) :
    totalSat outs = (outs.filterMap parsedOutputValue).sum
    ∧ (handle_unconfirmed_tx true s ⟨outs, t, h⟩).1.unconfirmed_count
        = s.unconfirmed_count + 1 := by
  constructor
  · have key : ∀ (l : List TxOutput) (acc : Int),
        l.foldl
          (fun acc o =>
            match parsedOutputValue o with
            | some n => acc + n
            | none => acc) acc
          = acc + (l.filterMap parsedOutputValue).sum := by
      intro l
      induction l with
      | nil => intro acc; simp
      | cons o l ih =>
        intro acc
        cases hpo : parsedOutputValue o <;>
          simp [List.filterMap_cons, hpo, ih, add_assoc]
    simpa using key outs 0
  · exact handle_tx_count true s ⟨outs, t, h⟩

/-! ## C1: per-interval count and total -/

theorem ingest_all_count (cb : Bool) (txs : List RawTx) (s : WWState) :
    (ingest_all cb txs s).unconfirmed_count = s.unconfirmed_count + txs.length := by
  induction txs generalizing s with
  | nil => simp [ingest_all]
  | cons tx txs ih =>
    simp only [ingest_all, List.foldl_cons] at *
    rw [ih, handle_tx_count, List.length_cons]
    omega

theorem ingest_all_total (cb : Bool) (txs : List RawTx) (s : WWState) :
    (ingest_all cb txs s).total_value_sat
      = s.total_value_sat + (txs.map (fun tx => totalSat tx.out)).sum := by
  induction txs generalizing s with
  | nil => simp [ingest_all]
  | cons tx txs ih =>
    simp only [ingest_all, List.foldl_cons, List.map_cons, List.sum_cons] at *
    rw [ih, handle_tx_total]
    ring

/-- C1 counterexample: a transaction whose only output value is the
unparseable string `"x"` has no parseable output, so the claim predicts
a summary count of `0`; the code still increments the transaction count
and the emitted summary reports count `1`. -/
theorem C1_counterexample :
    ((summary_cycle true
        (ingest_all true [⟨[⟨some (.jstr "x"), none⟩], none, none⟩]
          (WhaleWatch.init 100 60)) 0).2).map SummaryEvent.count = some 1
    ∧ specParseableTxCount [⟨[⟨some (.jstr "x"), none⟩], none, none⟩] = 0 := by
  constructor
  · with_unfolding_all decide
  · decide

/-- C1 (amended): starting from a freshly reset window, the summary
emitted after ingesting a nonempty sequence of transactions reports a
count equal to the number of ALL ingested transactions (transactions
with no parseable output value are counted too) and a total equal to the
exact sum of all parsed output values across those transactions. -/
theorem C1_summary_count_total (s : WWState) (txs : List RawTx) (now : ℚ)
    (h0c : s.unconfirmed_count = 0) (h0t : s.total_value_sat = 0)
    (hne : txs ≠ []) :
    ((summary_cycle true (ingest_all true txs s) now).2).map
        (fun ev => (ev.count, ev.total_btc))
      = some (txs.length,
          (((txs.map (fun tx => totalSat tx.out)).sum : Int) : ℚ) / 100000000) := by
  have hc : (ingest_all true txs s).unconfirmed_count = txs.length := by
    rw [ingest_all_count, h0c, Nat.zero_add]
  have ht : (ingest_all true txs s).total_value_sat
      = (txs.map (fun tx => totalSat tx.out)).sum := by
    rw [ingest_all_total, h0t, zero_add]
  have hlen : txs.length ≠ 0 := fun hl => hne (List.eq_nil_of_length_eq_zero hl)
  simp only [summary_cycle, hc, ht]
  rw [if_neg hlen]
  simp

/-- Witness for `C1_summary_count_total` at a concrete input: one
transaction with a single output of 123 satoshi. -/
theorem C1_summary_count_total_witness :
    ((summary_cycle true
        (ingest_all true [⟨[⟨some (.jnum 123), none⟩], some 5, some "h"⟩]
          (WhaleWatch.init 100 60)) 0).2).map
        (fun ev => (ev.count, ev.total_btc))
      = some (1, (123 : ℚ) / 100000000) := by
  have h := C1_summary_count_total (WhaleWatch.init 100 60)
    [⟨[⟨some (.jnum 123), none⟩], some 5, some "h"⟩] 0 rfl rfl (by decide)
  exact h.trans (by norm_num [totalSat, parsedOutputValue, pyInt])

/-! ## C4: summary emission and arithmetic -/

/-- C4: on a summary cycle, a zero snapshotted count emits no
`SummaryEvent`; a nonzero count emits one whose average is the cumulative
value divided by the count and whose USD fields are the native values
multiplied by the latest cached price (`0` when none is cached); in both
cases the statistics triple is reset. -/
theorem C4_summary_emission (s : WWState) (now : ℚ) :
    (s.unconfirmed_count = 0 → (summary_cycle true s now).2 = none)
    ∧ (s.unconfirmed_count ≠ 0 →
        (summary_cycle true s now).2 =
          some
            { count := s.unconfirmed_count
              total_btc := (s.total_value_sat : ℚ) / 100000000
              avg_btc := ((s.total_value_sat : ℚ) / 100000000) / (s.unconfirmed_count : ℚ)
              total_usd := ((s.total_value_sat : ℚ) / 100000000) * (s.price_usd.getD 0)
              avg_usd := (((s.total_value_sat : ℚ) / 100000000) / (s.unconfirmed_count : ℚ))
                  * (s.price_usd.getD 0)
              whales := s.whale_count
              timestamp := now })
    ∧ (summary_cycle true s now).1.unconfirmed_count = 0
    ∧ (summary_cycle true s now).1.total_value_sat = 0
    ∧ (summary_cycle true s now).1.whale_count = 0 := by
  refine ⟨?_, ?_, ?_, ?_, ?_⟩
  · intro h
    simp [summary_cycle, h]
  · intro h
    simp [summary_cycle, h]
  · simp only [summary_cycle]
    split <;> rfl
  · simp only [summary_cycle]
    split <;> rfl
  · simp only [summary_cycle]
    split <;> rfl

/-- Witness for `C4_summary_emission`: the empty window of a fresh
instance emits nothing; a window with 2 transactions totalling 6 BTC at
a cached price of 10 emits the expected summary. -/
theorem C4_summary_emission_witness :
    (summary_cycle true (WhaleWatch.init 100 60) 0).2 = none
    ∧ (summary_cycle true
        { threshold_btc := 100, summary_interval := 60, unconfirmed_count := 2,
          total_value_sat := 600000000, whale_count := 1, price_usd := some 10 } 7).2
      = some
          { count := 2, total_btc := 6, avg_btc := 3, total_usd := 60,
            avg_usd := 30, whales := 1, timestamp := 7 } := by
  constructor
  · exact (C4_summary_emission (WhaleWatch.init 100 60) 0).1 rfl
  · have h := (C4_summary_emission
      { threshold_btc := 100, summary_interval := 60, unconfirmed_count := 2,
        total_value_sat := 600000000, whale_count := 1, price_usd := some 10 } 7).2.1
      (by decide)
    refine h.trans ?_
    simp only [Option.some.injEq, SummaryEvent.mk.injEq]
    norm_num

/-! ## C6: WhaleEvent field contents -/

/-- C6: every `WhaleEvent` handed to the callback carries the transaction
hash, the value in BTC, a USD value equal to the BTC value multiplied by
the latest cached price (`0` when none is cached yet), the
upstream-supplied timestamp, and the address of the first output (absent
when the transaction has no outputs). -/
theorem C6_whale_event_fields (s : WWState) (tx : RawTx) (ev : WhaleEvent)
    (h : (handle_unconfirmed_tx true s tx).2 = some ev) :
    ev.hash = tx.hash
    ∧ ev.value_btc = (totalSat tx.out : ℚ) / 100000000
    ∧ ev.value_usd = (s.price_usd.getD 0) * ((totalSat tx.out : ℚ) / 100000000)
    ∧ ev.timestamp = tx.time
    ∧ ev.address = (match tx.out with | [] => none | o :: _ => o.addr) := by
  simp only [handle_unconfirmed_tx] at h
  split at h
  · simp only [if_true] at h
    obtain rfl := (Option.some.inj h).symm
    exact ⟨rfl, rfl, rfl, rfl, rfl⟩
  · simp at h

/-- Witness for `C6_whale_event_fields`: a 200 BTC transaction at
threshold 100 with a cached price of 2. -/
theorem C6_whale_event_fields_witness :
    (handle_unconfirmed_tx true
        { threshold_btc := 100, summary_interval := 60, unconfirmed_count := 0,
          total_value_sat := 0, whale_count := 0, price_usd := some 2 }
        ⟨[⟨some (.jnum 20000000000), some "addr1"⟩], some 5, some "txh"⟩).2
      = some { hash := some "txh", value_btc := 200, value_usd := 400,
               timestamp := some 5, address := some "addr1" }
    ∧ ({ hash := some "txh", value_btc := 200, value_usd := 400,
         timestamp := some 5, address := some "addr1" } : WhaleEvent).value_btc
        = (totalSat [⟨some (.jnum 20000000000), some "addr1"⟩] : ℚ) / 100000000 := by
  have hEmit :
      (handle_unconfirmed_tx true
          { threshold_btc := 100, summary_interval := 60, unconfirmed_count := 0,
            total_value_sat := 0, whale_count := 0, price_usd := some 2 }
          ⟨[⟨some (.jnum 20000000000), some "addr1"⟩], some 5, some "txh"⟩).2
        = some { hash := some "txh", value_btc := 200, value_usd := 400,
                 timestamp := some 5, address := some "addr1" } := by
    simp only [handle_unconfirmed_tx]
    rw [if_pos (by norm_num [totalSat, parsedOutputValue, pyInt])]
    simp only [if_true, Option.some.injEq]
    norm_num [totalSat, parsedOutputValue, pyInt, WhaleEvent.mk.injEq]
  refine ⟨hEmit, ?_⟩
  exact (C6_whale_event_fields _ _ _ hEmit).2.1

/-! ## C7: fan-out independence between subscriber queues -/

/-- C7: a publish delivers the event to every registered queue that is
not full and drops it only for the full ones; the delivery outcome at
each position depends only on that queue, so one saturated subscriber
never affects the others, and the (total) broadcast function never
blocks. -/
theorem C7_broadcast_independent (qs : List ClientQueue) (et : String)
    (d : WWEvent) (i : Nat) (h : i < qs.length) :
    (broadcast_event qs et d).length = qs.length
    ∧ (broadcast_event qs et d).get ⟨i, by simpa [broadcast_event] using h⟩
      = (if queueFull (qs.get ⟨i, h⟩)
          then qs.get ⟨i, h⟩
          else { qs.get ⟨i, h⟩ with
                  items := (qs.get ⟨i, h⟩).items ++ [(et, d)] }) := by
  constructor
  · simp [broadcast_event]
  · simp only [broadcast_event, List.get_eq_getElem, List.getElem_map, queuePut]

/-- Witness for `C7_broadcast_independent`: the first queue (capacity 1)
is saturated, the second (capacity 100) still receives the event. -/
theorem C7_broadcast_independent_witness :
    (broadcast_event
        [⟨1, [("block", .block ⟨none, none, 0⟩)]⟩, ⟨100, []⟩]
        "whale" (.block ⟨some 1, none, 0⟩)).get ⟨1, by decide⟩
      = ⟨100, [("whale", .block ⟨some 1, none, 0⟩)]⟩
    ∧ (broadcast_event
        [⟨1, [("block", .block ⟨none, none, 0⟩)]⟩, ⟨100, []⟩]
        "whale" (.block ⟨some 1, none, 0⟩)).get ⟨0, by decide⟩
      = ⟨1, [("block", .block ⟨none, none, 0⟩)]⟩ := by
  constructor
  · have h := (C7_broadcast_independent
      [⟨1, [("block", .block ⟨none, none, 0⟩)]⟩, ⟨100, []⟩]
      "whale" (.block ⟨some 1, none, 0⟩) 1 (by decide)).2
    exact h.trans (by decide)
  · have h := (C7_broadcast_independent
      [⟨1, [("block", .block ⟨none, none, 0⟩)]⟩, ⟨100, []⟩]
      "whale" (.block ⟨some 1, none, 0⟩) 0 (by decide)).2
    exact h.trans (by decide)

/-! ## C8: liveness reporting -/

/-- C8 counterexample: the `WhaleWatch` class defines no `is_running`
attribute, so the `/health` endpoint's `hasattr` guard fails and the
status is `"starting"` even for a present, started watcher — the claimed
`is_running()` operation does not exist. -/
theorem C8_counterexample :
    pyHasattrWhaleWatch "is_running" = false
    ∧ health_check true true = "starting"
    ∧ health_check true false = "starting" := by
  refine ⟨by decide, by decide, by decide⟩

/-- C8 (amended): the Runtime Controller exposes no `is_running()`
operation; the health endpoint detects its absence via `hasattr` and
reports `"starting"` regardless of whether the watcher is present or the
stream connection ever established. -/
theorem C8_health_always_starting (watcherPresent runningResult : Bool) :
    health_check watcherPresent runningResult = "starting" := by
  cases watcherPresent <;> cases runningResult <;> decide

/-! ## C9: whale count bounded by transaction count -/

/-- C9: in every state reachable by any sequence of transaction
ingestions, summary-cycle resets, configuration updates and price
refreshes, the whale count lies between 0 and the transaction count. -/
theorem C9_whale_count_invariant (s : WWState) (h : WWReachable s) :
    0 ≤ s.whale_count ∧ s.whale_count ≤ s.unconfirmed_count := by
  induction h with
  | init t i => exact ⟨Nat.zero_le _, Nat.le_refl 0⟩
  | step s s₂ hr hstep ih =>
    refine ⟨Nat.zero_le _, ?_⟩
    cases hstep with
    | tx cb s t =>
      have h1 := handle_tx_count cb s t
      have h2 := handle_tx_whale cb s t
      have h3 := ih.2
      omega
    | summary cb s now =>
      have hz : (summary_cycle cb s now).1.whale_count = 0
          ∧ (summary_cycle cb s now).1.unconfirmed_count = 0 := by
        simp only [summary_cycle]
        split <;> exact ⟨rfl, rfl⟩
      omega
    | config t i s =>
      have hz : (update_config t i s).whale_count = s.whale_count
          ∧ (update_config t i s).unconfirmed_count = s.unconfirmed_count := by
        cases t <;> cases i <;> exact ⟨rfl, rfl⟩
      have h3 := ih.2
      omega
    | price p s => exact ih.2

/-- Witness for `C9_whale_count_invariant`: the state after ingesting one
small transaction into a fresh instance. -/
theorem C9_whale_count_invariant_witness :
    (handle_unconfirmed_tx true (WhaleWatch.init 100 60)
        ⟨[⟨some (.jnum 7), none⟩], none, none⟩).1.whale_count
      ≤ (handle_unconfirmed_tx true (WhaleWatch.init 100 60)
        ⟨[⟨some (.jnum 7), none⟩], none, none⟩).1.unconfirmed_count :=
  (C9_whale_count_invariant _
    (WWReachable.step _ _ (WWReachable.init 100 60)
      (WWStep.tx true _ ⟨[⟨some (.jnum 7), none⟩], none, none⟩))).2

/-! ## C10: callback exceptions are swallowed -/

theorem pyTry_discard {ε α : Type} (a : Except ε Unit) (r : α) :
    (fun _ => r) <$> pyTry a = (Except.ok r : Except ε α) := by
  cases a <;> rfl

/-- C10: with the user callback modelled as a possibly-raising
`Except`-valued function, each of the three emission sites (whale, block,
summary) returns normally — the exception never propagates — and the
state and emitted event equal those of the pure handler, i.e. the counter
updates made before the callback stand exactly as if it had succeeded. -/
theorem C10_callback_exceptions_swallowed {ε : Type}
    (cb : String → WWEvent → Except ε Unit) (s : WWState) (tx : RawTx)
    (blk : RawBlock) (now₁ now₂ : ℚ) :
    handle_unconfirmed_txE cb s tx = .ok (handle_unconfirmed_tx true s tx)
    ∧ handle_new_blockE cb blk now₁ = .ok (handle_new_block true blk now₁)
    ∧ summary_cycleE cb s now₂ = .ok (summary_cycle true s now₂) := by
  refine ⟨?_, ?_, ?_⟩
  · simp only [handle_unconfirmed_txE, handle_unconfirmed_tx]
    split
    · rename_i hc
      simp [pyTry_discard, hc]
    · rfl
  · simp only [handle_new_blockE, handle_new_block]
    simp [pyTry_discard]
  · simp only [summary_cycleE, summary_cycle]
    split
    · rfl
    · rename_i hc
      simp [pyTry_discard, hc]
